import Mathlib

set_option maxRecDepth 10000

/-!
Verification of the streaming response engine and client of a Go
ksqlDB client library (`response.go`, `client.go`).

Byte strings are modelled as `List Nat`; the newline delimiter is byte
10.  The two message pipes of a `Response` are unbuffered rendezvous
channels fed by a single sequential producer goroutine, so the order in
which the consumer observes messages is deterministic: we embed the
producer (`initAsyncRead`'s goroutine) as a function from the body to
the list of messages it sends, in order, and the consumer
(`ReadStreaming`) as an interpreter of that message list.
-/

namespace Ksqldb

/-- A byte string (`[]byte` in the source). -/
abbrev Bytes := List Nat

/-- Constant `apiDataDelimiter`: the bytes-comparable record delimiter, `"\n"`. -/
def apiDataDelimiter : Bytes := [10]

/-- Go errors: the sentinels used by the code (`io.EOF`,
`context.Canceled`, `context.DeadlineExceeded`), arbitrary other errors,
and wrapping via `fmt.Errorf("...: %w", err)`. -/
inductive GoErr where
  | eof
  | canceled
  | deadlineExceeded
  | errorString (msg : String)
  | wrapped (msg : String) (inner : GoErr)
deriving DecidableEq, Repr

/-- Model of `errors.Is`: target equality, unwrapping through wrapped errors. -/
def errorsIs : GoErr → GoErr → Bool
  | GoErr.wrapped m inner, target =>
      (GoErr.wrapped m inner == target) || errorsIs inner target
  | e, target => e == target

/-- Function `isOneOf` from `response.go`: `errors.Is` against each member of a
list of errors. -/
def isOneOf (e : GoErr) (errs : List GoErr) : Bool :=
  errs.any (fun err => errorsIs e err)

/-- The innermost error of a wrapping chain. -/
def unwrapTerminal : GoErr → GoErr
  | GoErr.wrapped _ inner => unwrapTerminal inner
  | e => e

/-- An HTTP response body as the reader task sees it: the byte stream,
followed by either clean end-of-stream (`none`) or a read error. -/
structure BodyStream where
  data : Bytes
  readErr : Option GoErr
deriving Repr

/-- The `dropCR` step of `bufio.ScanLines`: strip one trailing carriage return. -/
def dropCR (b : Bytes) : Bytes :=
  if b ≠ [] ∧ b.getLast? = some 13 then b.dropLast else b

/-- Split a byte string at its first newline: `some (tok, rest)` when a
newline exists (`tok` excludes it), `none` otherwise. -/
def splitAtDelim : Bytes → Option (Bytes × Bytes)
  | [] => none
  | b :: rest =>
      if b = 10 then some ([], rest)
      else
        match splitAtDelim rest with
        | some (tok, rem) => some (b :: tok, rem)
        | none => none

/-- One `scanner.Scan()` step with `bufio.ScanLines`: `some (token,
rest)` when `Scan` returns true (the token has its delimiter stripped
and a trailing CR dropped; a final non-terminated line is returned as a
token), `none` when `Scan` returns false. -/
def scanStep (remaining : Bytes) : Option (Bytes × Bytes) :=
  match splitAtDelim remaining with
  | some (tok, rem) => some (dropCR tok, rem)
  | none => if remaining = [] then none else some (dropCR remaining, [])

/-- Fuelled form of the token sequence produced by repeated
`scanner.Scan()` calls (each scan strictly shrinks the remaining bytes,
so `b.length + 1` units of fuel always suffice). -/
def scanTokensF : Nat → Bytes → List Bytes
  | 0, _ => []
  | fuel + 1, b =>
      match scanStep b with
      | some (tok, rem) => tok :: scanTokensF fuel rem
      | none => []

/-- The full token sequence produced by repeated `scanner.Scan()` calls
over a byte stream (declarative form of the scan loop). -/
def scanTokens (b : Bytes) : List Bytes := scanTokensF (b.length + 1) b

/-- A record is meaningful when it is non-empty and not the bare
delimiter — the condition of `filterSendDataChannel`. -/
def meaningful (b : Bytes) : Bool :=
  decide (b ≠ []) && !(b == apiDataDelimiter)

/-- A message observed on one of the two pipes: a data record on the
data channel, or a terminal error on the error channel. -/
inductive Ev where
  | data (b : Bytes)
  | errEv (e : GoErr)
deriving DecidableEq, Repr

/-- Function `filterSendDataChannel`: the events the call sends (`none` models a
nil `[]byte`, which is dropped, as are empty and bare-delimiter
slices). -/
def filterSendDataChannel (byt : Option Bytes) : List Ev :=
  match byt with
  | none => []
  | some b => if meaningful b then [Ev.data b] else []

/-- Whether the reader task's scope is observed as done at loop
iteration `i`: `cancelAt = some k` means external cancellation becomes
observable at iteration `k`; `none` means the scope is never canceled
while the task runs. -/
def ctxDone (cancelAt : Option Nat) (i : Nat) : Bool :=
  match cancelAt with
  | none => false
  | some k => decide (k ≤ i)

/-- The goroutine of `initAsyncRead` (fuelled form), as the ordered
list of messages it sends before closing both pipes, paired with the
number of `scanner.Scan()` calls it makes.  Each iteration first checks
the scope (`select` on `Context.Done()`); if done it sends
`context.Canceled` on the error pipe and stops.  Otherwise it scans: a
failed scan sends `io.EOF` (clean end) or the scanner's error, then
flushes `scanner.Bytes()` — nil after a failed scan — through the
filter; a successful scan sends the token through the filter and
loops. -/
def producerLoopF (readErr : Option GoErr) (cancelAt : Option Nat) :
    Nat → Bytes → Nat → List Ev × Nat
  | 0, _, _ => ([], 0)
  | fuel + 1, remaining, i =>
      if ctxDone cancelAt i then
        ([Ev.errEv GoErr.canceled], 0)
      else
        match scanStep remaining with
        | none =>
            (Ev.errEv (readErr.getD GoErr.eof) :: filterSendDataChannel none, 1)
        | some (tok, rem) =>
            let r := producerLoopF readErr cancelAt fuel rem (i + 1)
            (filterSendDataChannel (some tok) ++ r.1, r.2 + 1)

/-- The reader loop (each successful scan strictly shrinks the
remaining bytes, so `remaining.length + 1` units of fuel always
suffice). -/
def producerLoop (readErr : Option GoErr) (cancelAt : Option Nat)
    (remaining : Bytes) (i : Nat) : List Ev × Nat :=
  producerLoopF readErr cancelAt (remaining.length + 1) remaining i

/-- The full message trace of the reader task over a body. -/
def producerTrace (body : BodyStream) (cancelAt : Option Nat) : List Ev × Nat :=
  producerLoop body.readErr cancelAt body.data 0

/-- Constant `bytes.MinRead` of the Go standard library. -/
def MinRead : Nat := 512

/-- Function `newBuffer`: `bytes.NewBuffer(make([]byte, bytes.MinRead))`.  The
argument of `make` has length 512, so the buffer's initial contents is
512 zero bytes (not an empty buffer of capacity 512). -/
def newBuffer : Bytes := List.replicate MinRead 0

/-- Function `writeToBuffer`: append to the buffer; `bytes.Buffer.Write` always
succeeds, so the wrapped error is never produced. -/
def writeToBuffer (byt : Bytes) (buf : Bytes) : Bytes × Option GoErr :=
  (buf ++ byt, none)

/-- Function `drainDataToBytes`: fold the remaining records of the data pipe into
a fresh `newBuffer`, keeping the last write's error. -/
def drainDataToBytes (records : List Bytes) : Bytes × Option GoErr :=
  records.foldl (fun p byt =>
      let w := writeToBuffer byt p.1
      (w.1, w.2)) (newBuffer, none)

/-- The records still to be received on the data pipe from a suffix of
the producer's trace (the error pipe is separate, so error messages are
not seen by a drain of the data pipe). -/
def dataEvents : List Ev → List Bytes
  | [] => []
  | Ev.data b :: rest => b :: dataEvents rest
  | Ev.errEv _ :: rest => dataEvents rest

/-- Outcome of `ReadStreaming`: final handler state, whether
`rr.Cancel()` was triggered, the returned error (`none` = nil), and the
arguments of all handler invocations in order. -/
structure StreamResult (σ : Type) where
  state : σ
  canceled : Bool
  err : Option GoErr
  invocations : List Bytes
deriving Repr

/-- The recoverable-condition list of `ReadStreaming`. -/
def recoverableErrs : List GoErr :=
  [GoErr.eof, GoErr.canceled, GoErr.deadlineExceeded]

/-- The `ReadStreaming` loop as an interpreter of the producer's message
trace (rendezvous channels with a sequential producer make the
consumer's `select` deterministic: it receives the messages in send
order).  A handler is a state-passing function returning an optional
error; `inv` accumulates invocation arguments in reverse. -/
def readStreamingLoop {σ : Type} (handler : σ → Bytes → σ × Option GoErr) :
    σ → List Bytes → List Ev → StreamResult σ
  | s, inv, [] => ⟨s, false, none, inv.reverse⟩
  | s, inv, Ev.data b :: rest =>
      let hr := handler s b
      match hr.2 with
      | some e => ⟨hr.1, true, some e, (b :: inv).reverse⟩
      | none => readStreamingLoop handler hr.1 (b :: inv) rest
  | s, inv, Ev.errEv e :: rest =>
      if isOneOf e recoverableErrs then
        let d := drainDataToBytes (dataEvents rest)
        match d.2 with
        | some derr => ⟨s, true, some derr, inv.reverse⟩
        | none =>
          let hr := handler s d.1
          match hr.2 with
          | some herr => ⟨hr.1, true, some herr, (d.1 :: inv).reverse⟩
          | none =>
            if errorsIs e GoErr.eof then ⟨hr.1, true, none, (d.1 :: inv).reverse⟩
            else ⟨hr.1, true, some (GoErr.wrapped "reading response body" e),
                   (d.1 :: inv).reverse⟩
      else ⟨s, true, some (GoErr.wrapped "reading response body" e), inv.reverse⟩

/-- Composition of `ReadStreaming` with the reader task over a body. -/
def runReadStreaming {σ : Type} (handler : σ → Bytes → σ × Option GoErr)
    (s0 : σ) (body : BodyStream) (cancelAt : Option Nat) : StreamResult σ :=
  readStreamingLoop handler s0 [] (producerTrace body cancelAt).1

/-- The handler `ReadAll` passes to `ReadStreaming`: append each record
to the shared buffer. -/
def readAllHandler : Bytes → Bytes → Bytes × Option GoErr :=
  fun buf byt => writeToBuffer byt buf

/-- Method `ReadAll`: run `ReadStreaming` with the appending handler over a
fresh `newBuffer` and return the buffer's contents and the error. -/
def runReadAll (body : BodyStream) : Bytes × Option GoErr :=
  let r := runReadStreaming readAllHandler newBuffer body none
  (r.state, r.err)

/-- A handler that accepts every record (used to observe invocation
traces). -/
def okHandler : Unit → Bytes → Unit × Option GoErr := fun _ _ => ((), none)

/-- A handler that rejects exactly the record `"b"` (a concrete failing
handler). -/
def failOnB : Unit → Bytes → Unit × Option GoErr :=
  fun _ byt =>
    ((), if byt == [98] then some (GoErr.errorString "no b please") else none)

/-- The handler state after processing a list of records. -/
def handlerStates {σ : Type} (handler : σ → Bytes → σ × Option GoErr) :
    σ → List Bytes → σ
  | s, [] => s
  | s, r :: rs => handlerStates handler (handler s r).1 rs

/-- The handler accepts (returns nil on) each record of the list in
sequence. -/
def handlerOkOn {σ : Type} (handler : σ → Bytes → σ × Option GoErr) :
    σ → List Bytes → Bool
  | _, [] => true
  | s, r :: rs => (handler s r).2.isNone && handlerOkOn handler (handler s r).1 rs

/-- The records the reader task publishes on a full clean scan: the
scanned units that pass `filterSendDataChannel`'s filter, in scan
order. -/
def publishedRecords (data : Bytes) : List Bytes :=
  (scanTokens data).filter meaningful

/-- The initialization state of a `Response`'s lazy-start machinery:
the `sync.Once` guard, the two pipes (identified by allocation ids),
the number of reader tasks started, and an id supply. -/
structure RespInit where
  onceDone : Bool
  dataCh : Option Nat
  errCh : Option Nat
  tasks : Nat
  nextId : Nat
deriving DecidableEq, Repr

/-- The initialization part of `initAsyncRead`: allocate the two pipes
and start one reader task. -/
def initAsyncRead (st : RespInit) : RespInit :=
  { st with dataCh := some st.nextId, errCh := some (st.nextId + 1),
            nextId := st.nextId + 2, tasks := st.tasks + 1 }

/-- Model of `sync.Once.Do`: run the function only on the first call. -/
def onceDo (f : RespInit → RespInit) (st : RespInit) : RespInit :=
  if st.onceDone then st else { f st with onceDone := true }

/-- Method `Read`: `rr.once.Do(rr.initAsyncRead)`, then return the two
pipes. -/
def readInit (st : RespInit) : RespInit × (Option Nat × Option Nat) :=
  let st' := onceDo initAsyncRead st
  (st', (st'.dataCh, st'.errCh))

/-- Which pointer-valued fields of a `Response` handle `Client.Do`
populated: the embedded `*http.Response`, the `Context`, and
`cancelFunc`. -/
structure RespFields where
  hasResponse : Bool
  hasContext : Bool
  hasCancel : Bool
deriving DecidableEq, Repr

/-- Method `Client.Do`: build the request (may fail), dispatch it (may fail),
and return the optional handle and optional error.  Build failure
returns no handle; transport failure returns a handle with only the
cancellation trigger populated; success populates all three fields. -/
def clientDo (buildResult : Except GoErr Unit)
    (transportResult : Except GoErr Unit) :
    Option RespFields × Option GoErr :=
  match buildResult with
  | Except.error e => (none, some (GoErr.wrapped "sending ksql request" e))
  | Except.ok _ =>
      match transportResult with
      | Except.error e =>
          (some ⟨false, false, true⟩,
           some (GoErr.wrapped "sending ksql request" e))
      | Except.ok _ => (some ⟨true, true, true⟩, none)

/-- Method `Cancel` calls `rr.cancelFunc()`; calling a nil function panics
(`none`). -/
def cancelSafe (r : RespFields) : Option Unit :=
  if r.hasCancel then some () else none

/-- Method `Read` runs `initAsyncRead`, which dereferences `rr.Response.Body`
(a nil embedded `*http.Response` panics) and whose task selects on
`rr.Context.Done()` (a nil context panics); `none` models the panic. -/
def readSafe (r : RespFields) : Option Unit :=
  if r.hasResponse && r.hasContext then some () else none

/-- Method `ReadStreaming` first calls `Read`. -/
def readStreamingSafe (r : RespFields) : Option Unit := readSafe r

/-- Method `ReadAll` calls `ReadStreaming`. -/
def readAllSafe (r : RespFields) : Option Unit := readStreamingSafe r

/-- The fields of a parsed `net/url.URL` that `parseServerURL`
inspects. -/
structure URLParts where
  scheme : String
  path : String
deriving DecidableEq, Repr

/-- Function `parseServerURL`, with the result of the standard library's
`url.Parse` supplied as an oracle (`none` = parse error): fail when the
parse failed, the scheme is empty, or the path is neither empty nor
exactly "/". -/
def parseServerURL (parseResult : Option URLParts) : Option URLParts :=
  match parseResult with
  | none => none
  | some u =>
      if u.scheme = "" then none
      else if u.path ≠ "" ∧ u.path ≠ "/" then none
      else some u

/-- Constructor `NewClient` succeeds exactly when `parseServerURL` does; no other
construction step can fail. -/
def newClientOk (parseResult : Option URLParts) : Bool :=
  (parseServerURL parseResult).isSome

theorem splitAtDelim_length {b : Bytes} {tok rem : Bytes}
    (h : splitAtDelim b = some (tok, rem)) : rem.length < b.length := by
  induction b generalizing tok rem with
  | nil => exact absurd h (by simp [splitAtDelim])
  | cons x xs ih =>
      unfold splitAtDelim at h
      by_cases hx : x = 10
      · rw [if_pos hx] at h
        have h2 : rem = xs := by
          injection h with h1
          injection h1 with ha hb
          exact hb.symm
        subst h2
        simp
      · rw [if_neg hx] at h
        cases hs : splitAtDelim xs with
        | none => rw [hs] at h; exact absurd h (by simp)
        | some p =>
            obtain ⟨t, r⟩ := p
            rw [hs] at h
            have h2 : rem = r := by
              injection h with h1
              injection h1 with ha hb
              exact hb.symm
            subst h2
            have := ih hs
            simp only [List.length_cons]
            omega

theorem scanStep_length {b tok rem : Bytes}
    (h : scanStep b = some (tok, rem)) : rem.length < b.length := by
  unfold scanStep at h
  cases hs : splitAtDelim b with
  | some p =>
      obtain ⟨t, r⟩ := p
      rw [hs] at h
      have h2 : rem = r := by
        injection h with h1
        injection h1 with ha hb
        exact hb.symm
      subst h2
      exact splitAtDelim_length hs
  | none =>
      rw [hs] at h
      by_cases hb : b = []
      · rw [if_pos hb] at h; exact absurd h (by simp)
      · rw [if_neg hb] at h
        have h2 : rem = [] := by
          injection h with h1
          injection h1 with ha hbb
          exact hbb.symm
        subst h2
        simp only [List.length_nil]
        exact List.length_pos.mpr hb

theorem scanTokensF_sufficient :
    ∀ (fuel : Nat) (b : Bytes), b.length < fuel →
      scanTokensF fuel b = scanTokens b := by
  intro fuel
  induction fuel using Nat.strong_induction_on with
  | _ fuel ih =>
      intro b hb
      match fuel with
      | 0 => omega
      | f + 1 =>
          by_cases hf : b.length = f
          · subst hf; rfl
          · have hlt : b.length < f := by omega
            show scanTokensF (f + 1) b = scanTokensF (b.length + 1) b
            unfold scanTokensF
            cases h : scanStep b with
            | none => rfl
            | some p =>
                obtain ⟨tok, rem⟩ := p
                have hr : rem.length < b.length := scanStep_length h
                have e1 : scanTokensF f rem = scanTokens rem :=
                  ih f (by omega) rem (by omega)
                have e2 : scanTokensF b.length rem = scanTokens rem :=
                  ih b.length (by omega) rem (by omega)
                simp only [e1, e2]

theorem scanTokens_eq_none {b : Bytes} (h : scanStep b = none) :
    scanTokens b = [] := by
  unfold scanTokens scanTokensF
  rw [h]

theorem scanTokens_eq_some {b tok rem : Bytes}
    (h : scanStep b = some (tok, rem)) :
    scanTokens b = tok :: scanTokens rem := by
  show scanTokensF (b.length + 1) b = _
  unfold scanTokensF
  rw [h]
  have hr : rem.length < b.length := scanStep_length h
  simp only [scanTokensF_sufficient b.length rem (by omega)]

theorem producerLoopF_sufficient (readErr : Option GoErr)
    (cancelAt : Option Nat) :
    ∀ (fuel : Nat) (b : Bytes) (i : Nat), b.length < fuel →
      producerLoopF readErr cancelAt fuel b i =
        producerLoop readErr cancelAt b i := by
  intro fuel
  induction fuel using Nat.strong_induction_on with
  | _ fuel ih =>
      intro b i hb
      match fuel with
      | 0 => omega
      | f + 1 =>
          by_cases hf : b.length = f
          · subst hf; rfl
          · have hlt : b.length < f := by omega
            show producerLoopF readErr cancelAt (f + 1) b i
                = producerLoopF readErr cancelAt (b.length + 1) b i
            unfold producerLoopF
            cases hc : ctxDone cancelAt i with
            | true => simp [hc]
            | false =>
                simp only [hc, Bool.false_eq_true, if_false]
                cases h : scanStep b with
                | none => rfl
                | some p =>
                    obtain ⟨tok, rem⟩ := p
                    have hr : rem.length < b.length := scanStep_length h
                    have e1 : producerLoopF readErr cancelAt f rem (i + 1)
                        = producerLoop readErr cancelAt rem (i + 1) :=
                      ih f (by omega) rem (i + 1) (by omega)
                    have e2 : producerLoopF readErr cancelAt b.length rem (i + 1)
                        = producerLoop readErr cancelAt rem (i + 1) :=
                      ih b.length (by omega) rem (i + 1) (by omega)
                    simp only [e1, e2]

theorem producerLoop_canceled {readErr : Option GoErr}
    {cancelAt : Option Nat} {remaining : Bytes} {i : Nat}
    (h : ctxDone cancelAt i = true) :
    producerLoop readErr cancelAt remaining i
      = ([Ev.errEv GoErr.canceled], 0) := by
  unfold producerLoop producerLoopF
  simp [h]

theorem producerLoop_scanNone {readErr : Option GoErr}
    {cancelAt : Option Nat} {remaining : Bytes} {i : Nat}
    (hc : ctxDone cancelAt i = false) (h : scanStep remaining = none) :
    producerLoop readErr cancelAt remaining i
      = ([Ev.errEv (readErr.getD GoErr.eof)], 1) := by
  unfold producerLoop producerLoopF
  simp [hc, h, filterSendDataChannel]

theorem producerLoop_scanSome {readErr : Option GoErr}
    {cancelAt : Option Nat} {remaining : Bytes} {i : Nat}
    {tok rem : Bytes}
    (hc : ctxDone cancelAt i = false)
    (h : scanStep remaining = some (tok, rem)) :
    producerLoop readErr cancelAt remaining i
      = (filterSendDataChannel (some tok)
            ++ (producerLoop readErr cancelAt rem (i + 1)).1,
         (producerLoop readErr cancelAt rem (i + 1)).2 + 1) := by
  have hr : rem.length < remaining.length := scanStep_length h
  show producerLoopF readErr cancelAt (remaining.length + 1) remaining i = _
  unfold producerLoopF
  simp only [hc, Bool.false_eq_true, if_false, h]
  simp only [producerLoopF_sufficient readErr cancelAt remaining.length rem
        (i + 1) (by omega)]

theorem ctxDone_none (i : Nat) : ctxDone none i = false := rfl

theorem errorsIs_not_wrapped {t : GoErr}
    (ht : ∀ m i, t ≠ GoErr.wrapped m i) :
    ∀ e, errorsIs e t = (unwrapTerminal e == t) := by
  intro e
  induction e with
  | wrapped m inner ih =>
      have hne : (GoErr.wrapped m inner == t) = false := by
        cases hbe : GoErr.wrapped m inner == t with
        | false => rfl
        | true =>
            exact absurd (eq_of_beq hbe).symm (ht m inner)
      simp only [errorsIs, hne, Bool.false_or, unwrapTerminal]
      exact ih
  | eof => rfl
  | canceled => rfl
  | deadlineExceeded => rfl
  | errorString m => rfl

/-- Without cancellation the reader task publishes exactly the filtered
scan tokens, then the terminal condition (`io.EOF` on a clean end, the
reader's own error otherwise); it makes one `Scan` call per token plus
the final failing one. -/
theorem producerLoop_no_cancel (readErr : Option GoErr) :
    ∀ (n : Nat) (data : Bytes), data.length ≤ n → ∀ (i : Nat),
      producerLoop readErr none data i =
        (((scanTokens data).filter meaningful).map Ev.data
            ++ [Ev.errEv (readErr.getD GoErr.eof)],
         (scanTokens data).length + 1) := by
  intro n
  induction n with
  | zero =>
      intro data hlen i
      have hd : data = [] := List.length_eq_zero.mp (Nat.le_zero.mp hlen)
      subst hd
      have hs : scanStep ([] : Bytes) = none := by rfl
      rw [producerLoop_scanNone (ctxDone_none i) hs, scanTokens_eq_none hs]
      rfl
  | succ n ih =>
      intro data hlen i
      cases h : scanStep data with
      | none =>
          rw [producerLoop_scanNone (ctxDone_none i) h, scanTokens_eq_none h]
          rfl
      | some p =>
          obtain ⟨tok, rem⟩ := p
          have hrem : rem.length ≤ n := by
            have := scanStep_length h; omega
          rw [producerLoop_scanSome (ctxDone_none i) h, scanTokens_eq_some h,
              ih rem hrem (i + 1)]
          simp only [filterSendDataChannel, List.filter_cons,
            List.length_cons]
          by_cases hm : meaningful tok
          · simp [hm]
          · simp [hm]

theorem handlerOkOn_of_total {σ : Type}
    (handler : σ → Bytes → σ × Option GoErr)
    (hok : ∀ s b, (handler s b).2 = none) :
    ∀ (recs : List Bytes) (s : σ), handlerOkOn handler s recs = true := by
  intro recs
  induction recs with
  | nil => intro s; rfl
  | cons r rs ih =>
      intro s
      simp only [handlerOkOn, hok s r, Option.isNone_none, Bool.true_and]
      exact ih _

/-- While the handler keeps accepting, the consumer loop processes a
prefix of data messages record by record, in order. -/
theorem readStreamingLoop_data_records {σ : Type}
    (handler : σ → Bytes → σ × Option GoErr) :
    ∀ (recs : List Bytes) (s : σ) (inv : List Bytes) (rest : List Ev),
      handlerOkOn handler s recs = true →
      readStreamingLoop handler s inv (recs.map Ev.data ++ rest)
        = readStreamingLoop handler (handlerStates handler s recs)
            (recs.reverse ++ inv) rest := by
  intro recs
  induction recs with
  | nil => intro s inv rest _; rfl
  | cons r rs ih =>
      intro s inv rest hok
      simp only [handlerOkOn, Bool.and_eq_true, Option.isNone_iff_eq_none]
        at hok
      simp only [List.map_cons, List.cons_append, readStreamingLoop,
        hok.1, handlerStates, List.reverse_cons, List.append_assoc,
        List.singleton_append]
      exact ih (handler s r).1 (r :: inv) rest hok.2

/-- The consumer at the lone terminal message: cancel, then classify;
recoverable conditions drain the (already closed and empty) data pipe
into a fresh `newBuffer` and invoke the handler once more with it. -/
theorem readStreamingLoop_terminal {σ : Type}
    (handler : σ → Bytes → σ × Option GoErr) (s : σ) (inv : List Bytes)
    (e : GoErr) :
    readStreamingLoop handler s inv [Ev.errEv e]
      = if isOneOf e recoverableErrs then
          match (handler s newBuffer).2 with
          | some herr =>
              ⟨(handler s newBuffer).1, true, some herr,
               (newBuffer :: inv).reverse⟩
          | none =>
              if errorsIs e GoErr.eof then
                ⟨(handler s newBuffer).1, true, none,
                 (newBuffer :: inv).reverse⟩
              else
                ⟨(handler s newBuffer).1, true,
                 some (GoErr.wrapped "reading response body" e),
                 (newBuffer :: inv).reverse⟩
        else
          ⟨s, true, some (GoErr.wrapped "reading response body" e),
           inv.reverse⟩ := by
  simp only [readStreamingLoop, dataEvents, drainDataToBytes,
    List.foldl_nil]

/-- Master description of `ReadStreaming` over a full body with no
external cancellation, for a handler that accepts every record: the
handler sees each published record in order; on a recoverable terminal
condition it sees exactly one more invocation with the drained
`newBuffer` (which holds no records) and the call returns success for
`io.EOF` or the wrapped condition otherwise; on an unrecoverable
condition the call returns the wrapped condition with no further
invocation. -/
theorem runReadStreaming_no_cancel {σ : Type}
    (handler : σ → Bytes → σ × Option GoErr) (s0 : σ) (data : Bytes)
    (readErr : Option GoErr)
    (hok : ∀ s b, (handler s b).2 = none) :
    runReadStreaming handler s0 ⟨data, readErr⟩ none
      = (if isOneOf (readErr.getD GoErr.eof) recoverableErrs then
          if errorsIs (readErr.getD GoErr.eof) GoErr.eof then
            ⟨(handler (handlerStates handler s0 (publishedRecords data))
                newBuffer).1, true, none,
             publishedRecords data ++ [newBuffer]⟩
          else
            ⟨(handler (handlerStates handler s0 (publishedRecords data))
                newBuffer).1, true,
             some (GoErr.wrapped "reading response body"
                (readErr.getD GoErr.eof)),
             publishedRecords data ++ [newBuffer]⟩
        else
          ⟨handlerStates handler s0 (publishedRecords data), true,
           some (GoErr.wrapped "reading response body"
              (readErr.getD GoErr.eof)),
           publishedRecords data⟩) := by
  show readStreamingLoop handler s0 []
      (producerLoop readErr none data 0).1 = _
  rw [producerLoop_no_cancel readErr data.length data (le_refl _) 0]
  rw [show ((scanTokens data).filter meaningful)
        = publishedRecords data from rfl]
  rw [readStreamingLoop_data_records handler (publishedRecords data) s0 []
        [Ev.errEv (readErr.getD GoErr.eof)]
        (handlerOkOn_of_total handler hok _ _)]
  rw [readStreamingLoop_terminal]
  rw [hok (handlerStates handler s0 (publishedRecords data)) newBuffer]
  simp only [List.reverse_cons, List.append_nil, List.reverse_reverse,
    List.reverse_append]

theorem isOneOf_recoverable_eq (e : GoErr) :
    isOneOf e recoverableErrs
      = ((unwrapTerminal e == GoErr.eof)
          || (unwrapTerminal e == GoErr.canceled)
          || (unwrapTerminal e == GoErr.deadlineExceeded)) := by
  have he := errorsIs_not_wrapped (t := GoErr.eof) (fun m i => by simp) e
  have hc := errorsIs_not_wrapped (t := GoErr.canceled) (fun m i => by simp) e
  have hd := errorsIs_not_wrapped (t := GoErr.deadlineExceeded)
      (fun m i => by simp) e
  simp [isOneOf, recoverableErrs, he, hc, hd, Bool.or_assoc]

theorem isOneOf_cd_eq (e : GoErr) :
    isOneOf e [GoErr.canceled, GoErr.deadlineExceeded]
      = ((unwrapTerminal e == GoErr.canceled)
          || (unwrapTerminal e == GoErr.deadlineExceeded)) := by
  have hc := errorsIs_not_wrapped (t := GoErr.canceled) (fun m i => by simp) e
  have hd := errorsIs_not_wrapped (t := GoErr.deadlineExceeded)
      (fun m i => by simp) e
  simp [isOneOf, hc, hd]

theorem errorsIs_eof_eq (e : GoErr) :
    errorsIs e GoErr.eof = (unwrapTerminal e == GoErr.eof) :=
  errorsIs_not_wrapped (fun m i => by simp) e

/-- With external cancellation first observable at iteration `k` (not
after the body is exhausted), the reader task scans exactly `k` times,
publishes the filtered first `k` units, then the `Canceled` terminal
condition, with no final flush. -/
theorem producerLoop_cancel_mid (readErr : Option GoErr) :
    ∀ (n : Nat) (data : Bytes), data.length ≤ n →
      ∀ (i k : Nat), i ≤ k → k - i ≤ (scanTokens data).length →
        producerLoop readErr (some k) data i
          = ((((scanTokens data).take (k - i)).filter meaningful).map Ev.data
                ++ [Ev.errEv GoErr.canceled],
             k - i) := by
  intro n
  induction n with
  | zero =>
      intro data hlen i k hik hk
      have hd : data = [] := List.length_eq_zero.mp (Nat.le_zero.mp hlen)
      subst hd
      have hs : scanStep ([] : Bytes) = none := rfl
      rw [scanTokens_eq_none hs] at hk
      simp only [List.length_nil, Nat.le_zero] at hk
      have hki : k = i := by omega
      subst hki
      rw [producerLoop_canceled (by simp [ctxDone])]
      simp [hk]
  | succ n ih =>
      intro data hlen i k hik hk
      by_cases hki : k = i
      · subst hki
        rw [producerLoop_canceled (by simp [ctxDone])]
        simp
      · have hik' : i + 1 ≤ k := by omega
        cases h : scanStep data with
        | none =>
            rw [scanTokens_eq_none h] at hk
            simp only [List.length_nil, Nat.le_zero] at hk
            omega
        | some p =>
            obtain ⟨tok, rem⟩ := p
            have hrem : rem.length ≤ n := by
              have := scanStep_length h; omega
            have hkrem : k - (i + 1) ≤ (scanTokens rem).length := by
              rw [scanTokens_eq_some h] at hk
              simp only [List.length_cons] at hk
              omega
            have hcd : ctxDone (some k) i = false := by
              simp [ctxDone]; omega
            rw [producerLoop_scanSome hcd h,
                ih rem hrem (i + 1) k hik' hkrem,
                scanTokens_eq_some h]
            have hsub : k - i = (k - (i + 1)) + 1 := by omega
            rw [hsub]
            rw [show (tok :: scanTokens rem).take ((k - (i + 1)) + 1)
                  = tok :: (scanTokens rem).take (k - (i + 1)) from rfl]
            simp only [List.filter_cons, filterSendDataChannel,
              Prod.mk.injEq]
            by_cases hm : meaningful tok
            · simp [hm]
            · simp [hm]

/-- C1: the claim says `ReadAll` returns exactly the concatenation of
the delimited records — `"abc"` for body `"a\nb\nc\n"` and `""` for the
empty body, each with a nil error.  The code instead seeds every buffer
with 512 zero bytes (`bytes.NewBuffer(make([]byte, bytes.MinRead))`
creates a buffer whose initial contents is 512 zeros), so `ReadAll`
returns the records embedded between two 512-zero blocks: the spec
states the clear intent and the buffer construction is the slip. -/
theorem C1_readAll_zero_padded :
    runReadAll ⟨[97, 10, 98, 10, 99, 10], none⟩
        = (List.replicate 512 0 ++ [97, 98, 99] ++ List.replicate 512 0,
           none)
      ∧ runReadAll ⟨[], none⟩ = (List.replicate 1024 0, none)
      ∧ (runReadAll ⟨[97, 10, 98, 10, 99, 10], none⟩).1 ≠ [97, 98, 99]
      ∧ (runReadAll ⟨[], none⟩).1 ≠ [] := by
  refine ⟨by decide, by decide, by decide, by decide⟩

/-- C2: `ReadStreaming` classifies the terminal condition after
triggering cancellation: clean end-of-stream drains and returns nil; a
canceled or deadline-exceeded reader condition drains and returns that
condition wrapped; any other reader error is returned wrapped
immediately, with no drain and no further handler invocation (the
handler is assumed to accept every record — the claim describes the
classification, not handler failure). -/
theorem C2_terminal_classification {σ : Type}
    (handler : σ → Bytes → σ × Option GoErr) (s0 : σ) (data : Bytes)
    (e : GoErr) (hok : ∀ s b, (handler s b).2 = none) :
    ((runReadStreaming handler s0 ⟨data, none⟩ none).err = none
      ∧ (runReadStreaming handler s0 ⟨data, none⟩ none).invocations
          = publishedRecords data ++ [newBuffer])
    ∧ (isOneOf e [GoErr.canceled, GoErr.deadlineExceeded] = true →
        (runReadStreaming handler s0 ⟨data, some e⟩ none).err
            = some (GoErr.wrapped "reading response body" e)
          ∧ (runReadStreaming handler s0 ⟨data, some e⟩ none).invocations
              = publishedRecords data ++ [newBuffer])
    ∧ (isOneOf e recoverableErrs = false →
        (runReadStreaming handler s0 ⟨data, some e⟩ none).err
            = some (GoErr.wrapped "reading response body" e)
          ∧ (runReadStreaming handler s0 ⟨data, some e⟩ none).invocations
              = publishedRecords data) := by
  refine ⟨?_, ?_, ?_⟩
  · rw [runReadStreaming_no_cancel handler s0 data none hok]
    exact ⟨rfl, rfl⟩
  · intro h2
    rw [isOneOf_cd_eq] at h2
    simp only [Bool.or_eq_true] at h2
    have hrec : isOneOf e recoverableErrs = true := by
      rw [isOneOf_recoverable_eq]
      rcases h2 with h | h <;> simp [h]
    have heof : errorsIs e GoErr.eof = false := by
      rw [errorsIs_eof_eq]
      rcases h2 with h | h
      · rw [eq_of_beq h]; rfl
      · rw [eq_of_beq h]; rfl
    rw [runReadStreaming_no_cancel handler s0 data (some e) hok]
    simp [hrec, heof]
  · intro h3
    rw [runReadStreaming_no_cancel handler s0 data (some e) hok]
    simp [h3]

/-- C2 witness: at body `"a\nb"`, the always-accepting handler, and the
unrecoverable reader error `"boom"`, the hypotheses hold and the
conclusions evaluate. -/
theorem C2_terminal_classification_witness :
    (runReadStreaming okHandler () ⟨[97, 10, 98], none⟩ none).err = none
    ∧ (runReadStreaming okHandler ()
          ⟨[97, 10, 98], some (GoErr.errorString "boom")⟩ none).err
        = some (GoErr.wrapped "reading response body"
            (GoErr.errorString "boom"))
    ∧ (runReadStreaming okHandler ()
          ⟨[97, 10, 98], some (GoErr.errorString "boom")⟩ none).invocations
        = publishedRecords [97, 10, 98] :=
  ⟨(C2_terminal_classification okHandler () [97, 10, 98]
      (GoErr.errorString "boom") (fun _ _ => rfl)).1.1,
   ((C2_terminal_classification okHandler () [97, 10, 98]
      (GoErr.errorString "boom") (fun _ _ => rfl)).2.2 (by decide)).1,
   ((C2_terminal_classification okHandler () [97, 10, 98]
      (GoErr.errorString "boom") (fun _ _ => rfl)).2.2 (by decide)).2⟩

/-- C3 counterexample: for body `"a\nb"` with clean end-of-stream the
handler is not invoked with `"a"` then exactly `"b"`: the final partial
unit `"b"` arrives as an ordinary scanned record, and a third
invocation with the drain result follows. -/
theorem C3_counterexample :
    ¬ ((runReadStreaming okHandler () ⟨[97, 10, 98], none⟩ none).invocations
        = [[97], [98]]) := by
  decide

/-- C3 (amended): for every body followed by clean end-of-stream and a
handler accepting every record, `ReadStreaming` invokes the handler
once per published record in order — the final partial unit is
delivered as an ordinary record — then exactly once more with the
drained remainder, which contains no records (as coded it is the drain
buffer's initial 512 zero bytes), and returns success: body `"a\nb"`
yields invocations `"a"`, `"b"`, then the 512-zero buffer. -/
theorem C3_amended_final_invocation {σ : Type}
    (handler : σ → Bytes → σ × Option GoErr) (s0 : σ) (data : Bytes)
    (hok : ∀ s b, (handler s b).2 = none) :
    (runReadStreaming handler s0 ⟨data, none⟩ none).invocations
        = publishedRecords data ++ [newBuffer]
      ∧ (runReadStreaming handler s0 ⟨data, none⟩ none).err = none := by
  rw [runReadStreaming_no_cancel handler s0 data none hok]
  exact ⟨rfl, rfl⟩

/-- C3 witness: the amended claim evaluated at body `"a\nb"`. -/
theorem C3_amended_final_invocation_witness :
    (runReadStreaming okHandler () ⟨[97, 10, 98], none⟩ none).invocations
        = publishedRecords [97, 10, 98] ++ [newBuffer]
      ∧ (runReadStreaming okHandler () ⟨[97, 10, 98], none⟩ none).err
          = none :=
  C3_amended_final_invocation okHandler () [97, 10, 98] (fun _ _ => rfl)

/-- C4: the reader task publishes exactly the scanned units that are
non-empty and not equal to the bare delimiter, one data record per
unit, in scan order, followed by the lone terminal condition; the final
partial unit passes through the same filter before the pipes close, and
empty or bare-delimiter units are never published. -/
theorem C4_published_records (data : Bytes) (readErr : Option GoErr) :
    (producerTrace ⟨data, readErr⟩ none).1
      = ((scanTokens data).filter meaningful).map Ev.data
          ++ [Ev.errEv (readErr.getD GoErr.eof)] := by
  show (producerLoop readErr none data 0).1 = _
  rw [producerLoop_no_cancel readErr data.length data (le_refl _) 0]

/-- C5: if the handler fails on a mid-stream data record, the loop
triggers cancellation and returns exactly that error unwrapped; no
drain happens and no handler invocation follows the failing one,
whatever messages were still to come. -/
theorem C5_handler_error_aborts {σ : Type}
    (handler : σ → Bytes → σ × Option GoErr) (s0 : σ)
    (recs : List Bytes) (b : Bytes) (e : GoErr) (rest : List Ev)
    (hpre : handlerOkOn handler s0 recs = true)
    (hfail : (handler (handlerStates handler s0 recs) b).2 = some e) :
    readStreamingLoop handler s0 [] (recs.map Ev.data ++ (Ev.data b :: rest))
      = ⟨(handler (handlerStates handler s0 recs) b).1, true, some e,
         recs ++ [b]⟩ := by
  rw [readStreamingLoop_data_records handler recs s0 [] (Ev.data b :: rest)
        hpre]
  simp only [readStreamingLoop, hfail, List.reverse_cons, List.append_nil,
    List.reverse_append, List.reverse_reverse]

/-- C5 witness: records `"a"` then `"b"` with a handler that rejects
`"b"`, followed by a pending end-of-stream message that is never
consumed. -/
theorem C5_handler_error_aborts_witness :
    readStreamingLoop failOnB () []
        ([[97]].map Ev.data ++ (Ev.data [98] :: [Ev.errEv GoErr.eof]))
      = ⟨(failOnB (handlerStates failOnB () [[97]]) [98]).1, true,
         some (GoErr.errorString "no b please"), [[97]] ++ [[98]]⟩ :=
  C5_handler_error_aborts failOnB () [[97]] [98]
    (GoErr.errorString "no b please") [Ev.errEv GoErr.eof]
    (by decide) (by decide)

/-- C6: when the scope is observed canceled at iteration `k`
(mid-stream, before the body is exhausted), the reader task publishes
the `Canceled` condition, closes both pipes and exits having scanned
exactly `k` times — never scanning after observing cancellation — and
`ReadStreaming` still performs exactly one drain-and-flush (one final
handler invocation) before returning the wrapped cancellation error. -/
theorem C6_cancellation_mid_stream {σ : Type}
    (handler : σ → Bytes → σ × Option GoErr) (s0 : σ) (data : Bytes)
    (readErr : Option GoErr) (k : Nat)
    (hk : k ≤ (scanTokens data).length)
    (hok : ∀ s b, (handler s b).2 = none) :
    producerTrace ⟨data, readErr⟩ (some k)
        = ((((scanTokens data).take k).filter meaningful).map Ev.data
              ++ [Ev.errEv GoErr.canceled], k)
      ∧ (runReadStreaming handler s0 ⟨data, readErr⟩ (some k)).invocations
          = ((scanTokens data).take k).filter meaningful ++ [newBuffer]
      ∧ (runReadStreaming handler s0 ⟨data, readErr⟩ (some k)).err
          = some (GoErr.wrapped "reading response body" GoErr.canceled) := by
  have hp : producerLoop readErr (some k) data 0
      = ((((scanTokens data).take k).filter meaningful).map Ev.data
            ++ [Ev.errEv GoErr.canceled], k) := by
    have := producerLoop_cancel_mid readErr data.length data (le_refl _)
        0 k (Nat.zero_le k) (by simpa using hk)
    simpa using this
  have hrun : runReadStreaming handler s0 ⟨data, readErr⟩ (some k)
      = ⟨(handler (handlerStates handler s0
            (((scanTokens data).take k).filter meaningful)) newBuffer).1,
         true, some (GoErr.wrapped "reading response body" GoErr.canceled),
         ((scanTokens data).take k).filter meaningful ++ [newBuffer]⟩ := by
    show readStreamingLoop handler s0 []
        (producerLoop readErr (some k) data 0).1 = _
    rw [hp]
    rw [readStreamingLoop_data_records handler
          (((scanTokens data).take k).filter meaningful) s0 []
          [Ev.errEv GoErr.canceled] (handlerOkOn_of_total handler hok _ _)]
    rw [readStreamingLoop_terminal]
    rw [hok _ newBuffer]
    rw [show isOneOf GoErr.canceled recoverableErrs = true from rfl,
        show errorsIs GoErr.canceled GoErr.eof = false from rfl]
    simp
  exact ⟨hp, by rw [hrun], by rw [hrun]⟩

/-- C6 witness: body `"a\nb\nc\n"` with cancellation observed at
iteration 1 and the always-accepting handler. -/
theorem C6_cancellation_mid_stream_witness :
    producerTrace ⟨[97, 10, 98, 10, 99, 10], none⟩ (some 1)
        = ((((scanTokens [97, 10, 98, 10, 99, 10]).take 1).filter
              meaningful).map Ev.data ++ [Ev.errEv GoErr.canceled], 1)
      ∧ (runReadStreaming okHandler () ⟨[97, 10, 98, 10, 99, 10], none⟩
            (some 1)).invocations
          = ((scanTokens [97, 10, 98, 10, 99, 10]).take 1).filter meaningful
              ++ [newBuffer]
      ∧ (runReadStreaming okHandler () ⟨[97, 10, 98, 10, 99, 10], none⟩
            (some 1)).err
          = some (GoErr.wrapped "reading response body" GoErr.canceled) :=
  C6_cancellation_mid_stream okHandler () [97, 10, 98, 10, 99, 10] none 1
    (by decide) (fun _ _ => rfl)

/-- C7: the reader task is started at most once per handle: with the
once-guard clear, the first `Read` starts exactly one task; a second
`Read` changes no state — so any further call behaves identically —
and returns the same pair of pipes as the first. -/
theorem C7_reader_started_once (st : RespInit) (h : st.onceDone = false) :
    (readInit st).1.tasks = st.tasks + 1
      ∧ readInit (readInit st).1 = ((readInit st).1, (readInit st).2)
      ∧ (readInit (readInit st).1).1.tasks = st.tasks + 1 := by
  simp [readInit, onceDo, initAsyncRead, h]

/-- C7 witness: a fresh handle state. -/
theorem C7_reader_started_once_witness :
    (readInit ⟨false, none, none, 0, 0⟩).1.tasks = 0 + 1
      ∧ readInit (readInit ⟨false, none, none, 0, 0⟩).1
          = ((readInit ⟨false, none, none, 0, 0⟩).1,
             (readInit ⟨false, none, none, 0, 0⟩).2)
      ∧ (readInit (readInit ⟨false, none, none, 0, 0⟩).1).1.tasks = 0 + 1 :=
  C7_reader_started_once ⟨false, none, none, 0, 0⟩ rfl

/-- C8: `Do` on build failure returns no handle and the wrapped build
error, whatever the transport would have done; on transport failure it
returns a handle populated only with the cancellation trigger, together
with the wrapped transport error. -/
theorem C8_do_failure_shapes (eb et : GoErr) (tr : Except GoErr Unit) :
    clientDo (Except.error eb) tr
        = (none, some (GoErr.wrapped "sending ksql request" eb))
      ∧ clientDo (Except.ok ()) (Except.error et)
          = (some ⟨false, false, true⟩,
             some (GoErr.wrapped "sending ksql request" et)) :=
  ⟨rfl, rfl⟩

/-- C9: client construction succeeds exactly when the base URL parses,
declares a scheme, and has an empty or root path. -/
theorem C9_construction_succeeds_iff (pr : Option URLParts) :
    newClientOk pr = true
      ↔ ∃ u : URLParts, pr = some u ∧ u.scheme ≠ ""
          ∧ (u.path = "" ∨ u.path = "/") := by
  cases pr with
  | none => simp [newClientOk, parseServerURL]
  | some u =>
      simp only [newClientOk, parseServerURL]
      by_cases h1 : u.scheme = ""
      · simp [h1]
      · by_cases h2 : u.path ≠ "" ∧ u.path ≠ "/"
        · simp [h1, h2]
        · simp [h1, h2]
          tauto

/-- C10: on the handle `Do` returns after a transport failure (only the
cancellation trigger populated), `Cancel` is safe, but `Read`,
`ReadStreaming` and `ReadAll` all dereference the nil embedded response
and nil context and panic (modelled as `none`). -/
theorem C10_failed_handle_consumption_panics (et : GoErr) :
    (clientDo (Except.ok ()) (Except.error et)).1
        = some ⟨false, false, true⟩
      ∧ cancelSafe ⟨false, false, true⟩ = some ()
      ∧ readSafe ⟨false, false, true⟩ = none
      ∧ readStreamingSafe ⟨false, false, true⟩ = none
      ∧ readAllSafe ⟨false, false, true⟩ = none :=
  ⟨rfl, rfl, rfl, rfl, rfl⟩

end Ksqldb
